import Mathlib

/-
Verification of the caremates offline-first audio synchronization engine.

Shallow embedding of:
  - src/lib/audio-store.ts (file present as src/unnamed/part_000): the durable
    Local Store over IndexedDB — Recording / PendingDelete entities, blob
    decomposition into bytes + mimeType, updateRecordingStatus merge semantics;
  - src/lib/upload.ts: the upload pipeline (uploadRecording), retry policy
    (isNetworkError, isRetryableStatus, isRetryableError, backoffDelay) and
    deleteRecordingFromServer;
  - src/app/sw.ts: the promise-chain task queue (enqueue), handleDelete and
    handleRetryDeletes.

Effectful code is modelled by explicit state passing: the IndexedDB store is a
pure value threaded through operations, every network call's outcome is drawn
from an environment (`FetchOutcome`), and each run produces a trace of
observable events (network calls, store writes, backoff sleeps).  JavaScript
numbers appearing here are either integers (modelled as Nat) or the backoff
delay computation (modelled over ℚ; the computation involves only small powers
of two and the jitter, so rationals are an exact model of the float values).
Store operations are modelled as succeeding (the claims under study do not
concern IndexedDB transaction failure).
-/

/-- Status of a recording. `loc` renders the source's "local" (a Lean keyword). -/
inductive RecStatus
  | loc
  | uploading
  | synced
  | failed
deriving DecidableEq, Repr

/-- A binary blob: raw bytes plus a content-type (Blob.type, possibly ""). -/
structure Blob where
  data : List Nat
  type : String
deriving DecidableEq, Repr

/-- The Recording entity of src/lib/audio-store.ts (hydrated form, with a Blob). -/
structure Recording where
  id : String
  filename : String
  blob : Blob
  fileSize : Nat
  duration : Nat
  recordedAt : String
  status : RecStatus
  s3Key : Option String := none
  uploadAttempts : Nat
  lastError : Option String := none
deriving DecidableEq, Repr

/-- The raw stored form of a Recording: the blob is decomposed into
`data` (ArrayBuffer bytes) and `mimeType`, as written by saveRecording.
(Records written through this store never retain a Blob field; the
`raw.blob instanceof Blob` fast path of hydrateRecording is therefore
unreachable for them and is not modelled.) -/
structure StoredRecording where
  id : String
  filename : String
  data : List Nat
  mimeType : String
  fileSize : Nat
  duration : Nat
  recordedAt : String
  status : RecStatus
  s3Key : Option String := none
  uploadAttempts : Nat
  lastError : Option String := none
deriving DecidableEq, Repr

/-- A pending remote deletion, audio-store.ts `PendingDelete`. -/
structure PendingDelete where
  id : String
  s3Key : String
deriving DecidableEq, Repr

/-- The durable Local Store: the "recordings" and "pending-deletes" object
stores of the caremates IndexedDB database (both keyed by `id`). -/
structure AudioStore where
  recordings : List StoredRecording
  pendingDeletes : List PendingDelete
deriving DecidableEq, Repr

/-- IndexedDB `put` on the recordings store (keyPath "id"): replace the
record with the same key if present, otherwise insert. -/
def putRecord : List StoredRecording → StoredRecording → List StoredRecording
  | [], x => [x]
  | y :: ys, x => if y.id = x.id then x :: ys else y :: putRecord ys x

/-- IndexedDB `put` on the pending-deletes store (keyPath "id"). -/
def putPending : List PendingDelete → PendingDelete → List PendingDelete
  | [], x => [x]
  | y :: ys, x => if y.id = x.id then x :: ys else y :: putPending ys x

/-- audio-store.ts hydrateRecording: rebuild the Blob from the stored bytes,
defaulting an empty ("" is falsy) mimeType to "audio/webm". -/
def hydrateRecording (raw : StoredRecording) : Recording :=
  { id := raw.id
    filename := raw.filename
    blob := { data := raw.data
              type := if raw.mimeType = "" then "audio/webm" else raw.mimeType }
    fileSize := raw.fileSize
    duration := raw.duration
    recordedAt := raw.recordedAt
    status := raw.status
    s3Key := raw.s3Key
    uploadAttempts := raw.uploadAttempts
    lastError := raw.lastError }

/-- The storable object built inside audio-store.ts saveRecording:
`{ ...rest, data, mimeType: blob.type }` with the blob field dropped. -/
def toStorable (r : Recording) : StoredRecording :=
  { id := r.id
    filename := r.filename
    data := r.blob.data
    mimeType := r.blob.type
    fileSize := r.fileSize
    duration := r.duration
    recordedAt := r.recordedAt
    status := r.status
    s3Key := r.s3Key
    uploadAttempts := r.uploadAttempts
    lastError := r.lastError }

/-- audio-store.ts saveRecording: decompose the blob and `put` the record. -/
def saveRecording (r : Recording) (store : AudioStore) : AudioStore :=
  { store with recordings := putRecord store.recordings (toStorable r) }

/-- audio-store.ts getAllRecordings: read every raw record and hydrate each. -/
def getAllRecordings (store : AudioStore) : List Recording :=
  store.recordings.map hydrateRecording

/-- audio-store.ts getRecordingById: point lookup, hydrated on read. -/
def getRecordingById (id : String) (store : AudioStore) : Option Recording :=
  (store.recordings.find? (fun r => r.id = id)).map hydrateRecording

/-- audio-store.ts deleteRecording: IndexedDB `delete` by key. -/
def deleteRecording (id : String) (store : AudioStore) : AudioStore :=
  { store with recordings := store.recordings.filter (fun r => r.id ≠ id) }

/-- The optional `extras` argument of audio-store.ts updateRecordingStatus. -/
structure UpdateExtras where
  uploadAttempts : Option Nat := none
  lastError : Option String := none
  s3Key : Option String := none
deriving DecidableEq, Repr

/-- The record merge performed by updateRecordingStatus: present extras
overwrite, absent extras are preserved, and when no lastError is supplied a
transition to synced clears it. -/
def applyUpdate (raw : StoredRecording) (status : RecStatus) (extras : UpdateExtras) :
    StoredRecording :=
  { raw with
    status := status
    uploadAttempts :=
      match extras.uploadAttempts with
      | some n => n
      | none => raw.uploadAttempts
    s3Key :=
      match extras.s3Key with
      | some k => some k
      | none => raw.s3Key
    lastError :=
      match extras.lastError with
      | some e => some e
      | none => if status = RecStatus.synced then none else raw.lastError }

/-- audio-store.ts updateRecordingStatus: read the raw record, merge, `put`.
A missing record is left untouched (the source returns undefined). -/
def updateRecordingStatus (id : String) (status : RecStatus) (extras : UpdateExtras)
    (store : AudioStore) : AudioStore :=
  match store.recordings.find? (fun r => r.id = id) with
  | none => store
  | some raw =>
      { store with recordings := putRecord store.recordings (applyUpdate raw status extras) }

/-- audio-store.ts addPendingDelete. -/
def addPendingDelete (entry : PendingDelete) (store : AudioStore) : AudioStore :=
  { store with pendingDeletes := putPending store.pendingDeletes entry }

/-- audio-store.ts getAllPendingDeletes. -/
def getAllPendingDeletes (store : AudioStore) : List PendingDelete :=
  store.pendingDeletes

/-- audio-store.ts removePendingDelete: IndexedDB `delete` by key. -/
def removePendingDelete (id : String) (store : AudioStore) : AudioStore :=
  { store with pendingDeletes := store.pendingDeletes.filter (fun e => e.id ≠ id) }

/-! ## Upload pipeline (src/lib/upload.ts) -/

/-- upload.ts MAX_ATTEMPTS. -/
def MAX_ATTEMPTS : Nat := 3

/-- The outcome of one browser fetch, drawn from the environment:
the promise rejects with a network-class error (TypeError on connection
failure, or the AbortError raised by fetchWithTimeout's own timeout), rejects
with some other error, or resolves with a response carrying an HTTP status. -/
inductive FetchOutcome
  | netErr (msg : String)
  | thrown (msg : String)
  | resp (status : Nat)
deriving DecidableEq, Repr

/-- An error thrown inside the upload pipeline: a rethrown network-class fetch
error, the upload.ts UploadError class (carrying its `retryable` flag), or any
other thrown value. -/
inductive JsError
  | network (msg : String)
  | uploadErr (retryable : Bool) (msg : String)
  | other (msg : String)
deriving DecidableEq, Repr

/-- The `err.message` read in uploadRecording's catch block. -/
def JsError.message : JsError → String
  | .network msg => msg
  | .uploadErr _ msg => msg
  | .other msg => msg

/-- upload.ts isNetworkError: true exactly for TypeError / AbortError
rejections, which the model's `JsError.network` constructor represents. -/
def isNetworkError : JsError → Bool
  | .network _ => true
  | .uploadErr _ _ => false
  | .other _ => false

/-- upload.ts isRetryableStatus: 5xx, 408 or 429. -/
def isRetryableStatus (status : Nat) : Bool :=
  decide (500 ≤ status) || decide (status = 408) || decide (status = 429)

/-- upload.ts isRetryableError: only an UploadError can be retryable. -/
def isRetryableError : JsError → Bool
  | .uploadErr r _ => r
  | .network _ => false
  | .other _ => false

/-- Response.ok: HTTP status in the range 200..299. -/
def respOk (status : Nat) : Bool :=
  decide (200 ≤ status) && decide (status ≤ 299)

/-- upload.ts backoffDelay: `1000 * 2^attempt * (0.5 + Math.random())`,
with `rand` the value Math.random() returned, so `rand ∈ [0, 1)`. -/
def backoffDelay (attempt : Nat) (rand : ℚ) : ℚ :=
  (1000 * 2 ^ attempt) * (1 / 2 + rand)

/-- upload.ts getPresignedUrl, given the fetch outcome and the key the server
would return on success (the returned url is consumed opaquely by putToS3 and
is not modelled): network-class rejections are rethrown as-is, any other
rejection becomes a non-retryable UploadError, a non-OK response becomes an
UploadError whose retryability follows isRetryableStatus. -/
def getPresignedUrl (o : FetchOutcome) (key : String) : Except JsError String :=
  match o with
  | .netErr msg => .error (.network msg)
  | .thrown _ => .error (.uploadErr false ("Failed to get presigned URL"))
  | .resp code =>
      if respOk code then .ok key
      else .error (.uploadErr (isRetryableStatus code)
        ("Failed to get presigned URL: " ++ toString code))

/-- upload.ts putToS3 under the same error discipline as getPresignedUrl. -/
def putToS3 (o : FetchOutcome) : Except JsError Unit :=
  match o with
  | .netErr msg => .error (.network msg)
  | .thrown _ => .error (.uploadErr false ("S3 upload failed"))
  | .resp code =>
      if respOk code then .ok ()
      else .error (.uploadErr (isRetryableStatus code)
        ("S3 upload failed: " ++ toString code))

/-- upload.ts saveRecordingToDb under the same error discipline. -/
def saveRecordingToDb (o : FetchOutcome) : Except JsError Unit :=
  match o with
  | .netErr msg => .error (.network msg)
  | .thrown _ => .error (.uploadErr false ("Failed to save to database"))
  | .resp code =>
      if respOk code then .ok ()
      else .error (.uploadErr (isRetryableStatus code)
        ("Failed to save to database: " ++ toString code))

/-- The environment of one uploadRecording invocation: the fetch outcome of
each remote call, indexed by the loop's attempt counter, the key a successful
presign returns, and the Math.random() draw used by each attempt's backoff. -/
structure NetEnv where
  presign : Nat → FetchOutcome
  presignKey : Nat → String
  putS3 : Nat → FetchOutcome
  save : Nat → FetchOutcome
  jitter : Nat → ℚ

/-- upload.ts UploadResult. -/
structure UploadResult where
  success : Bool
  recordingId : String
  status : RecStatus
  error : Option String := none
deriving DecidableEq, Repr

/-- Observable events of an uploadRecording run: backoff sleeps (with the loop
attempt counter and the computed delay in ms), each network call (with the
attempt counter and whether it succeeded), the best-effort failed-status
metadata write of the terminal path (whose outcome is swallowed), and every
Local Store write. -/
inductive Event
  | sleep (attemptVar : Nat) (delayMs : ℚ)
  | callPresign (attemptVar : Nat) (ok : Bool)
  | callPut (attemptVar : Nat) (ok : Bool)
  | callSave (attemptVar : Nat) (ok : Bool)
  | callSaveFailedStatus
  | storeUpdate (id : String) (status : RecStatus) (extras : UpdateExtras)
  | storeDelete (id : String)
deriving DecidableEq, Repr

/-- One pass through uploadRecording's try block, starting from the current
value of the `s3Key` local variable.  Returns whether the block reached the
successful saveRecordingToDb, the updated `s3Key` local, the store (the
idempotency checkpoint persists the key between putToS3 and the metadata
commit), and the events of the calls made. -/
def attemptTry (env : NetEnv) (rec : Recording) (attempt : Nat) (s3Key : Option String)
    (store : AudioStore) : Except JsError Unit × Option String × AudioStore × List Event :=
  match s3Key with
  | some key =>
      match saveRecordingToDb (env.save attempt) with
      | .error e => (.error e, some key, store, [.callSave attempt false])
      | .ok _ => (.ok (), some key, store, [.callSave attempt true])
  | none =>
      match getPresignedUrl (env.presign attempt) (env.presignKey attempt) with
      | .error e => (.error e, none, store, [.callPresign attempt false])
      | .ok key =>
          match putToS3 (env.putS3 attempt) with
          | .error e => (.error e, none, store, [.callPresign attempt true, .callPut attempt false])
          | .ok _ =>
              let store' := updateRecordingStatus rec.id .uploading { s3Key := some key } store
              match saveRecordingToDb (env.save attempt) with
              | .error e =>
                  (.error e, some key, store',
                   [.callPresign attempt true, .callPut attempt true,
                    .storeUpdate rec.id .uploading { s3Key := some key },
                    .callSave attempt false])
              | .ok _ =>
                  (.ok (), some key, store',
                   [.callPresign attempt true, .callPut attempt true,
                    .storeUpdate rec.id .uploading { s3Key := some key },
                    .callSave attempt true])

/-- uploadRecording's terminal failure handling (after the loop): pin the
record to failed with attempts at the budget, then best-effort mirror the
failed status to the metadata store, swallowing that call's own outcome. -/
def terminalFailure (rec : Recording) (lastError : Option String) (store : AudioStore) :
    UploadResult × AudioStore × List Event :=
  let store' := updateRecordingStatus rec.id .failed
      { uploadAttempts := some MAX_ATTEMPTS, lastError := lastError } store
  ({ success := false, recordingId := rec.id, status := .failed, error := lastError },
   store',
   [.storeUpdate rec.id .failed { uploadAttempts := some MAX_ATTEMPTS, lastError := lastError },
    .callSaveFailedStatus])

/-- The attempt loop of uploadRecording.  The source's
`for (attempt = startAttempt; attempt < MAX_ATTEMPTS; attempt++)` is modelled
with an explicit iteration budget `fuel`; uploadRecording calls it with
`fuel = MAX_ATTEMPTS - startAttempt` so that the loop condition
`attempt < MAX_ATTEMPTS` is exactly `fuel > 0`, and exhausted fuel (like the
source's in-catch `attempt + 1 >= MAX_ATTEMPTS` break and the loop condition
itself) falls through to terminal failure handling. -/
def uploadLoop (env : NetEnv) (rec : Recording) (startAttempt : Nat) :
    Nat → Nat → Option String → Option String → AudioStore →
    UploadResult × AudioStore × List Event
  | 0, _, _, lastError, store => terminalFailure rec lastError store
  | fuel + 1, attempt, s3Key, _lastError, store =>
      let sleepEvts : List Event :=
        if startAttempt < attempt then
          [.sleep attempt (backoffDelay (attempt - 1) (env.jitter attempt))]
        else []
      let store0 := updateRecordingStatus rec.id .uploading
        { uploadAttempts := some (attempt + 1) } store
      let evts0 := sleepEvts ++
        [.storeUpdate rec.id .uploading { uploadAttempts := some (attempt + 1) }]
      match attemptTry env rec attempt s3Key store0 with
      | (.ok _, _, store1, evts1) =>
          let store2 := deleteRecording rec.id store1
          ({ success := true, recordingId := rec.id, status := .synced },
           store2, evts0 ++ evts1 ++ [.storeDelete rec.id])
      | (.error e, s3Key1, store1, evts1) =>
          let lastError1 := some e.message
          if isNetworkError e then
            let store2 := updateRecordingStatus rec.id .loc
              { uploadAttempts := some startAttempt } store1
            ({ success := false, recordingId := rec.id, status := .loc, error := lastError1 },
             store2,
             evts0 ++ evts1 ++ [.storeUpdate rec.id .loc { uploadAttempts := some startAttempt }])
          else if isRetryableError e then
            let rest := uploadLoop env rec startAttempt fuel (attempt + 1) s3Key1 lastError1 store1
            (rest.1, rest.2.1, evts0 ++ evts1 ++ rest.2.2)
          else
            let rest := terminalFailure rec lastError1 store1
            (rest.1, rest.2.1, evts0 ++ evts1 ++ rest.2.2)

/-- upload.ts uploadRecording: load the record; short-circuit on an absent
record, an already-synced record, or an exhausted attempt budget; otherwise run
the attempt loop from the record's persisted uploadAttempts. -/
def uploadRecording (env : NetEnv) (recordingId : String) (store : AudioStore) :
    UploadResult × AudioStore × List Event :=
  match getRecordingById recordingId store with
  | none =>
      ({ success := false, recordingId := recordingId, status := .failed,
         error := some ("Recording not found") }, store, [])
  | some recording =>
      if recording.status = RecStatus.synced then
        ({ success := true, recordingId := recordingId, status := .synced }, store, [])
      else if MAX_ATTEMPTS ≤ recording.uploadAttempts then
        ({ success := false, recordingId := recordingId, status := .failed,
           error := some (recording.lastError.getD ("Maximum upload attempts reached")) },
         store, [])
      else
        uploadLoop env recording recording.uploadAttempts
          (MAX_ATTEMPTS - recording.uploadAttempts) recording.uploadAttempts
          recording.s3Key none store

/-- upload.ts deleteRecordingFromServer: a straight fetch with no catch —
rejections propagate to the caller, a response yields Response.ok. -/
def deleteRecordingFromServer (o : FetchOutcome) : Except JsError Bool :=
  match o with
  | .netErr msg => .error (.network msg)
  | .thrown msg => .error (.other msg)
  | .resp code => .ok (respOk code)

/-! ## Service worker (src/app/sw.ts) -/

/-- A settled promise in the worker's single-threaded deterministic model:
the ordered trace of effects the computation performed, and whether it
fulfilled (`ok = true`) or rejected. -/
structure Settled (α : Type) where
  trace : List α
  ok : Bool

/-- JavaScript `p.then(onFulfilled, onRejected)`: once `p` settles, exactly one
handler runs, after all of `p`'s effects; the resulting promise settles with
the handler's outcome. -/
def promiseThen {α : Type} (p : Settled α) (onFulfilled onRejected : Unit → Settled α) :
    Settled α :=
  let next := if p.ok then onFulfilled () else onRejected ()
  { trace := p.trace ++ next.trace, ok := next.ok }

/-- sw.ts enqueue: `uploadQueue = uploadQueue.then(task, task)` — the task is
installed as both the fulfillment and the rejection handler of the current
chain tip, so it runs when and only when everything before it has settled,
whether or not an earlier task rejected. -/
def enqueue {α : Type} (queue : Settled α) (task : Unit → Settled α) : Settled α :=
  promiseThen queue task task

/-- The chain produced by submitting `tasks` (upload-one, delete-one,
retry-all) in order to the initially resolved `uploadQueue`. -/
def runQueue {α : Type} (tasks : List (Unit → Settled α)) : Settled α :=
  List.foldl enqueue { trace := [], ok := true } tasks

/-- The concatenated traces of a list of tasks, each run once in list order. -/
def taskTraces {α : Type} (tasks : List (Unit → Settled α)) : List α :=
  (tasks.map (fun t => (t ()).trace)).flatten

/-- The observable effects of sw.ts delete handling. -/
inductive SwEvent
  | callDeleteRemote (s3Key : String) (id : String)
  | registerSyncEvt
  | scheduleRetryEvt
deriving DecidableEq, Repr

/-- sw.ts handleDelete: offline → durably record a PendingDelete and register
background sync; online → call deleteRecordingFromServer, and only a rejection
that isNetworkError classifies as network-class records a PendingDelete and
schedules recovery (scheduleRetry on Safari, background sync otherwise).  A
resolved call — whatever boolean it returned — and a non-network rejection
fall through with no further action. -/
def handleDelete (online isSafari : Bool) (o : FetchOutcome)
    (recordingId s3Key : String) (store : AudioStore) : AudioStore × List SwEvent :=
  if online = false then
    (addPendingDelete { id := recordingId, s3Key := s3Key } store, [.registerSyncEvt])
  else
    match deleteRecordingFromServer o with
    | .ok _ => (store, [.callDeleteRemote s3Key recordingId])
    | .error e =>
        if isNetworkError e then
          (addPendingDelete { id := recordingId, s3Key := s3Key } store,
           .callDeleteRemote s3Key recordingId ::
             (if isSafari then [SwEvent.scheduleRetryEvt] else [SwEvent.registerSyncEvt]))
        else
          (store, [.callDeleteRemote s3Key recordingId])

/-- sw.ts handleRetryDeletes: snapshot the pending deletes, attempt each
independently (the environment gives each entry's fetch outcome), remove an
entry only when deleteRecordingFromServer resolved true; a rejection is caught
and the entry is left for the next sweep, and a resolved false leaves it too. -/
def retryDeleteStep (env : PendingDelete → FetchOutcome) (st : AudioStore)
    (entry : PendingDelete) : AudioStore :=
  match deleteRecordingFromServer (env entry) with
  | .ok deleted => if deleted then removePendingDelete entry.id st else st
  | .error _ => st

def handleRetryDeletes (env : PendingDelete → FetchOutcome) (store : AudioStore) :
    AudioStore :=
  List.foldl (retryDeleteStep env) store (getAllPendingDeletes store)

/-- Classifier for the object-transfer calls of the pipeline: the presigned-URL
request and the object PUT (getPresignedUrl / putToS3), as opposed to the
metadata-store calls. -/
def isTransferCall : Event → Bool
  | .callPresign _ _ => true
  | .callPut _ _ => true
  | _ => false

/-- Per-event invariant on Local Store writes: no write ever persists status
synced, and any written uploadAttempts value is at most MAX_ATTEMPTS. -/
def uploadWriteOk : Event → Prop
  | .storeUpdate _ status extras =>
      status ≠ RecStatus.synced ∧ ∀ v, extras.uploadAttempts = some v → v ≤ MAX_ATTEMPTS
  | _ => True

/-- Per-event invariant on backoff sleeps: a sleep only happens on an
iteration after the invocation's first (attemptVar strictly above the
invocation's startAttempt) and its delay is exactly
`backoffDelay (attemptVar - 1)` at that iteration's Math.random() draw. -/
def sleepOk (env : NetEnv) (startAttempt : Nat) : Event → Prop
  | .sleep a d => startAttempt < a ∧ d = backoffDelay (a - 1) (env.jitter a)
  | _ => True

/-! ## Concrete fixtures used by witnesses and counterexamples -/

/-- A fresh local recording, never uploaded. -/
def recA : Recording :=
  { id := "r1", filename := "a.webm", blob := { data := [7, 8], type := "audio/webm" },
    fileSize := 2, duration := 1, recordedAt := "t0", status := .loc,
    s3Key := none, uploadAttempts := 0, lastError := none }

/-- A store holding only recA. -/
def storeA : AudioStore := { recordings := [toStorable recA], pendingDeletes := [] }

/-- An environment where every remote call succeeds. -/
def envOk : NetEnv :=
  { presign := fun _ => .resp 200, presignKey := fun _ => "k1",
    putS3 := fun _ => .resp 200, save := fun _ => .resp 200,
    jitter := fun _ => 1 / 2 }

/-- An environment where attempt 0's presign gets a retryable 503 and attempt
1's presign rejects with a network-class error. -/
def env503ThenNet : NetEnv :=
  { presign := fun a => if a = 0 then .resp 503 else .netErr ("Failed to fetch"),
    presignKey := fun _ => "k1",
    putS3 := fun _ => .resp 200, save := fun _ => .resp 200,
    jitter := fun _ => 1 / 2 }

/-- An environment where the very first presign rejects with a network error. -/
def envNetFirst : NetEnv :=
  { presign := fun _ => .netErr ("Failed to fetch"), presignKey := fun _ => "k1",
    putS3 := fun _ => .resp 200, save := fun _ => .resp 200,
    jitter := fun _ => 1 / 2 }

/-- recA with the remoteKey idempotency marker already persisted. -/
def recKeyed : Recording :=
  { recA with id := "r2", s3Key := some ("k0"), uploadAttempts := 1 }

/-- A store holding only recKeyed. -/
def storeKeyed : AudioStore := { recordings := [toStorable recKeyed], pendingDeletes := [] }

/-- recA with its attempt budget exhausted. -/
def recSpent : Recording :=
  { recA with
    id := "r3"
    status := RecStatus.failed
    uploadAttempts := 3
    lastError := some ("S3 upload failed: 403") }

/-- A store holding only recSpent. -/
def storeSpent : AudioStore := { recordings := [toStorable recSpent], pendingDeletes := [] }

/-- A recording whose blob carries an empty content-type. -/
def recNoType : Recording :=
  { recA with id := "r4", blob := { data := [1, 2, 3], type := "" } }

/-- The empty store. -/
def storeEmpty : AudioStore := { recordings := [], pendingDeletes := [] }

/-- A single pending delete entry. -/
def pdA : PendingDelete := { id := "r5", s3Key := "k5" }

/-- A store holding only pdA. -/
def storePd : AudioStore := { recordings := [], pendingDeletes := [pdA] }

/-- A delete-sweep environment where every delete call gets an OK response. -/
def envDelOk : PendingDelete → FetchOutcome := fun _ => .resp 200

/-! ## Helper lemmas -/

theorem enqueue_trace {α : Type} (q : Settled α) (t : Unit → Settled α) :
    (enqueue q t).trace = q.trace ++ (t ()).trace := by
  simp [enqueue, promiseThen]

theorem taskTraces_cons {α : Type} (t : Unit → Settled α) (ts : List (Unit → Settled α)) :
    taskTraces (t :: ts) = (t ()).trace ++ taskTraces ts := by
  simp [taskTraces]

theorem taskTraces_append {α : Type} (l₁ l₂ : List (Unit → Settled α)) :
    taskTraces (l₁ ++ l₂) = taskTraces l₁ ++ taskTraces l₂ := by
  simp [taskTraces]

theorem foldl_enqueue_trace {α : Type} (tasks : List (Unit → Settled α)) :
    ∀ q : Settled α, (List.foldl enqueue q tasks).trace = q.trace ++ taskTraces tasks := by
  induction tasks with
  | nil => intro q; simp [taskTraces]
  | cons t ts ih =>
      intro q
      rw [List.foldl_cons, ih, enqueue_trace, taskTraces_cons, List.append_assoc]

theorem runQueue_trace {α : Type} (tasks : List (Unit → Settled α)) :
    (runQueue tasks).trace = taskTraces tasks := by
  rw [runQueue, foldl_enqueue_trace]
  rfl

theorem retryDeleteStep_mem (env : PendingDelete → FetchOutcome) (st : AudioStore)
    (y x : PendingDelete) :
    (x ∈ (retryDeleteStep env st y).pendingDeletes ↔
      x ∈ st.pendingDeletes ∧
        (deleteRecordingFromServer (env y) = Except.ok true → y.id ≠ x.id)) := by
  cases h : deleteRecordingFromServer (env y) with
  | error e => simp [retryDeleteStep, h]
  | ok deleted =>
      cases deleted with
      | false => simp [retryDeleteStep, h]
      | true =>
          simp only [retryDeleteStep, h]
          simp [removePendingDelete, List.mem_filter]
          intro _
          constructor
          · intro hx; exact fun hy => hx (hy.symm)
          · intro hy; exact fun hx => hy (hx.symm)

theorem sweep_mem (env : PendingDelete → FetchOutcome) (l : List PendingDelete) :
    ∀ (st : AudioStore) (x : PendingDelete),
      (x ∈ (List.foldl (retryDeleteStep env) st l).pendingDeletes ↔
        x ∈ st.pendingDeletes ∧
          ∀ y ∈ l, deleteRecordingFromServer (env y) = Except.ok true → y.id ≠ x.id) := by
  induction l with
  | nil => intro st x; simp
  | cons y ys ih =>
      intro st x
      rw [List.foldl_cons, ih, retryDeleteStep_mem]
      constructor
      · rintro ⟨⟨hmem, hy⟩, hys⟩
        refine ⟨hmem, ?_⟩
        intro z hz
        rcases List.mem_cons.mp hz with h | h
        · subst h; exact hy
        · exact hys z h
      · rintro ⟨hmem, hall⟩
        exact ⟨⟨hmem, hall y (List.mem_cons_self y ys)⟩,
          fun z hz => hall z (List.mem_cons_of_mem y hz)⟩

theorem getRecordingById_id (rid : String) (store : AudioStore) (rec : Recording)
    (h : getRecordingById rid store = some rec) : rec.id = rid := by
  unfold getRecordingById at h
  rcases hraw : store.recordings.find? (fun r => r.id = rid) with _ | raw
  · rw [hraw] at h; simp at h
  · rw [hraw] at h
    simp only [Option.map_some'] at h
    have hp := List.find?_some hraw
    have hid : raw.id = rid := by simpa using hp
    have h2 : hydrateRecording raw = rec := by injection h
    rw [← h2]
    simpa [hydrateRecording] using hid

theorem find?_putRecord (s : List StoredRecording) (x : StoredRecording) (i : String)
    (hi : x.id = i) : (putRecord s x).find? (fun r => r.id = i) = some x := by
  induction s with
  | nil => simp [putRecord, List.find?, hi]
  | cons y ys ih =>
      by_cases h : y.id = x.id
      · simp [putRecord, h, List.find?, hi]
      · have hy : ¬ y.id = i := by rw [← hi]; exact h
        simp [putRecord, h, List.find?, hy, ih]

theorem mem_putRecord_self (s : List StoredRecording) (x : StoredRecording) :
    x ∈ putRecord s x := by
  induction s with
  | nil => simp [putRecord]
  | cons y ys ih =>
      by_cases h : y.id = x.id
      · simp [putRecord, h]
      · simp [putRecord, h]
        right; exact ih

theorem hydrate_toStorable (r : Recording) (h : r.blob.type ≠ "") :
    hydrateRecording (toStorable r) = r := by
  obtain ⟨id, fn, ⟨bd, bt⟩, fs, du, ra, st, sk, ua, le⟩ := r
  simp only [toStorable] at h ⊢
  simp only [hydrateRecording]
  simp at h
  simp [h]

theorem attemptTry_shape (env : NetEnv) (rec : Recording) (attempt : Nat)
    (s3Key : Option String) (store : AudioStore) :
    (∃ key e, s3Key = some key ∧
      attemptTry env rec attempt s3Key store =
        (.error e, some key, store, [.callSave attempt false])) ∨
    (∃ key, s3Key = some key ∧
      attemptTry env rec attempt s3Key store =
        (.ok (), some key, store, [.callSave attempt true])) ∨
    (∃ e, s3Key = none ∧
      attemptTry env rec attempt s3Key store =
        (.error e, none, store, [.callPresign attempt false])) ∨
    (∃ e, s3Key = none ∧
      attemptTry env rec attempt s3Key store =
        (.error e, none, store, [.callPresign attempt true, .callPut attempt false])) ∨
    (∃ key e, s3Key = none ∧
      attemptTry env rec attempt s3Key store =
        (.error e, some key,
         updateRecordingStatus rec.id .uploading { s3Key := some key } store,
         [.callPresign attempt true, .callPut attempt true,
          .storeUpdate rec.id .uploading { s3Key := some key }, .callSave attempt false])) ∨
    (∃ key, s3Key = none ∧
      attemptTry env rec attempt s3Key store =
        (.ok (), some key,
         updateRecordingStatus rec.id .uploading { s3Key := some key } store,
         [.callPresign attempt true, .callPut attempt true,
          .storeUpdate rec.id .uploading { s3Key := some key }, .callSave attempt true])) := by
  cases s3Key with
  | some key =>
      cases hs : saveRecordingToDb (env.save attempt) with
      | error e =>
          exact Or.inl ⟨key, e, rfl, by simp [attemptTry, hs]⟩
      | ok u =>
          exact Or.inr (Or.inl ⟨key, rfl, by simp [attemptTry, hs]⟩)
  | none =>
      cases hp : getPresignedUrl (env.presign attempt) (env.presignKey attempt) with
      | error e =>
          exact Or.inr (Or.inr (Or.inl ⟨e, rfl, by simp [attemptTry, hp]⟩))
      | ok key =>
          cases hput : putToS3 (env.putS3 attempt) with
          | error e =>
              exact Or.inr (Or.inr (Or.inr (Or.inl ⟨e, rfl, by simp [attemptTry, hp, hput]⟩)))
          | ok u =>
              cases hs : saveRecordingToDb (env.save attempt) with
              | error e =>
                  exact Or.inr (Or.inr (Or.inr (Or.inr (Or.inl
                    ⟨key, e, rfl, by simp [attemptTry, hp, hput, hs]⟩))))
              | ok v =>
                  exact Or.inr (Or.inr (Or.inr (Or.inr (Or.inr
                    ⟨key, rfl, by simp [attemptTry, hp, hput, hs]⟩))))

theorem uploadLoop_writeOk (env : NetEnv) (rec : Recording) (startAttempt : Nat) :
    ∀ (fuel : Nat), ∀ (attempt : Nat) (s3Key : Option String) (lastError : Option String)
      (store : AudioStore),
      startAttempt ≤ attempt → fuel + attempt ≤ MAX_ATTEMPTS →
      ∀ ev ∈ (uploadLoop env rec startAttempt fuel attempt s3Key lastError store).2.2,
        uploadWriteOk ev := by
  intro fuel
  induction fuel with
  | zero =>
      intro attempt s3Key lastError store _ _ ev hmem
      simp only [uploadLoop, terminalFailure, List.mem_cons, List.mem_singleton] at hmem
      rcases hmem with h | h | h
      · subst h; simp [uploadWriteOk]
      · subst h; simp [uploadWriteOk]
      · simp at h
  | succ fuel ih =>
      intro attempt s3Key lastError store hsa hfuel
      rcases attemptTry_shape env rec attempt s3Key
          (updateRecordingStatus rec.id .uploading { uploadAttempts := some (attempt + 1) } store)
        with ⟨key, e, hs3, heq⟩ | ⟨key, hs3, heq⟩ | ⟨e, hs3, heq⟩ | ⟨e, hs3, heq⟩ |
             ⟨key, e, hs3, heq⟩ | ⟨key, hs3, heq⟩
      case _ =>
        simp only [uploadLoop, heq]
        by_cases hlt : startAttempt < attempt <;>
        cases e with
        | network msg =>
            simp [uploadWriteOk, isNetworkError, hlt]
            omega
        | uploadErr r msg =>
            cases r with
            | true =>
                have IH := ih (attempt + 1) (some key) (some msg)
                  (updateRecordingStatus rec.id .uploading
                    { uploadAttempts := some (attempt + 1) } store)
                  (by omega) (by omega)
                simp [uploadWriteOk, isNetworkError, isRetryableError, hlt]
                exact ⟨by omega, fun a ha => IH a ha⟩
            | false =>
                simp [uploadWriteOk, isNetworkError, isRetryableError, hlt, terminalFailure]
                omega
        | other msg =>
            simp [uploadWriteOk, isNetworkError, isRetryableError, hlt, terminalFailure]
            omega
      case _ =>
        simp only [uploadLoop, heq]
        by_cases hlt : startAttempt < attempt <;>
        · simp [uploadWriteOk, hlt]
          omega
      case _ =>
        simp only [uploadLoop, heq]
        by_cases hlt : startAttempt < attempt <;>
        cases e with
        | network msg =>
            simp [uploadWriteOk, isNetworkError, hlt]
            omega
        | uploadErr r msg =>
            cases r with
            | true =>
                have IH := ih (attempt + 1) none (some msg)
                  (updateRecordingStatus rec.id .uploading
                    { uploadAttempts := some (attempt + 1) } store)
                  (by omega) (by omega)
                simp [uploadWriteOk, isNetworkError, isRetryableError, hlt]
                exact ⟨by omega, fun a ha => IH a ha⟩
            | false =>
                simp [uploadWriteOk, isNetworkError, isRetryableError, hlt, terminalFailure]
                omega
        | other msg =>
            simp [uploadWriteOk, isNetworkError, isRetryableError, hlt, terminalFailure]
            omega
      case _ =>
        simp only [uploadLoop, heq]
        by_cases hlt : startAttempt < attempt <;>
        cases e with
        | network msg =>
            simp [uploadWriteOk, isNetworkError, hlt]
            omega
        | uploadErr r msg =>
            cases r with
            | true =>
                have IH := ih (attempt + 1) none (some msg)
                  (updateRecordingStatus rec.id .uploading
                    { uploadAttempts := some (attempt + 1) } store)
                  (by omega) (by omega)
                simp [uploadWriteOk, isNetworkError, isRetryableError, hlt]
                exact ⟨by omega, fun a ha => IH a ha⟩
            | false =>
                simp [uploadWriteOk, isNetworkError, isRetryableError, hlt, terminalFailure]
                omega
        | other msg =>
            simp [uploadWriteOk, isNetworkError, isRetryableError, hlt, terminalFailure]
            omega
      case _ =>
        simp only [uploadLoop, heq]
        by_cases hlt : startAttempt < attempt <;>
        cases e with
        | network msg =>
            simp [uploadWriteOk, isNetworkError, hlt]
            omega
        | uploadErr r msg =>
            cases r with
            | true =>
                have IH := ih (attempt + 1) (some key) (some msg)
                  (updateRecordingStatus rec.id .uploading { s3Key := some key }
                    (updateRecordingStatus rec.id .uploading
                      { uploadAttempts := some (attempt + 1) } store))
                  (by omega) (by omega)
                simp [uploadWriteOk, isNetworkError, isRetryableError, hlt]
                exact ⟨by omega, fun a ha => IH a ha⟩
            | false =>
                simp [uploadWriteOk, isNetworkError, isRetryableError, hlt, terminalFailure]
                omega
        | other msg =>
            simp [uploadWriteOk, isNetworkError, isRetryableError, hlt, terminalFailure]
            omega
      case _ =>
        simp only [uploadLoop, heq]
        by_cases hlt : startAttempt < attempt <;>
        · simp [uploadWriteOk, hlt]
          omega

theorem uploadLoop_sleepOk (env : NetEnv) (rec : Recording) (startAttempt : Nat) :
    ∀ (fuel : Nat), ∀ (attempt : Nat) (s3Key : Option String) (lastError : Option String)
      (store : AudioStore),
      ∀ ev ∈ (uploadLoop env rec startAttempt fuel attempt s3Key lastError store).2.2,
        sleepOk env startAttempt ev := by
  intro fuel
  induction fuel with
  | zero =>
      intro attempt s3Key lastError store ev hmem
      simp only [uploadLoop, terminalFailure, List.mem_cons, List.mem_singleton] at hmem
      rcases hmem with h | h | h
      · subst h; simp [sleepOk]
      · subst h; simp [sleepOk]
      · simp at h
  | succ fuel ih =>
      intro attempt s3Key lastError store
      rcases attemptTry_shape env rec attempt s3Key
          (updateRecordingStatus rec.id .uploading { uploadAttempts := some (attempt + 1) } store)
        with ⟨key, e, hs3, heq⟩ | ⟨key, hs3, heq⟩ | ⟨e, hs3, heq⟩ | ⟨e, hs3, heq⟩ |
             ⟨key, e, hs3, heq⟩ | ⟨key, hs3, heq⟩
      case _ =>
        simp only [uploadLoop, heq]
        by_cases hlt : startAttempt < attempt <;>
        cases e with
        | network msg => simp [sleepOk, isNetworkError, hlt]
        | uploadErr r msg =>
            cases r with
            | true =>
                have IH := ih (attempt + 1) (some key) (some msg)
                  (updateRecordingStatus rec.id .uploading
                    { uploadAttempts := some (attempt + 1) } store)
                simp [sleepOk, isNetworkError, isRetryableError, hlt]
                exact fun a ha => IH a ha
            | false => simp [sleepOk, isNetworkError, isRetryableError, hlt, terminalFailure]
        | other msg => simp [sleepOk, isNetworkError, isRetryableError, hlt, terminalFailure]
      case _ =>
        simp only [uploadLoop, heq]
        by_cases hlt : startAttempt < attempt <;>
        simp [sleepOk, hlt]
      case _ =>
        simp only [uploadLoop, heq]
        by_cases hlt : startAttempt < attempt <;>
        cases e with
        | network msg => simp [sleepOk, isNetworkError, hlt]
        | uploadErr r msg =>
            cases r with
            | true =>
                have IH := ih (attempt + 1) none (some msg)
                  (updateRecordingStatus rec.id .uploading
                    { uploadAttempts := some (attempt + 1) } store)
                simp [sleepOk, isNetworkError, isRetryableError, hlt]
                exact fun a ha => IH a ha
            | false => simp [sleepOk, isNetworkError, isRetryableError, hlt, terminalFailure]
        | other msg => simp [sleepOk, isNetworkError, isRetryableError, hlt, terminalFailure]
      case _ =>
        simp only [uploadLoop, heq]
        by_cases hlt : startAttempt < attempt <;>
        cases e with
        | network msg => simp [sleepOk, isNetworkError, hlt]
        | uploadErr r msg =>
            cases r with
            | true =>
                have IH := ih (attempt + 1) none (some msg)
                  (updateRecordingStatus rec.id .uploading
                    { uploadAttempts := some (attempt + 1) } store)
                simp [sleepOk, isNetworkError, isRetryableError, hlt]
                exact fun a ha => IH a ha
            | false => simp [sleepOk, isNetworkError, isRetryableError, hlt, terminalFailure]
        | other msg => simp [sleepOk, isNetworkError, isRetryableError, hlt, terminalFailure]
      case _ =>
        simp only [uploadLoop, heq]
        by_cases hlt : startAttempt < attempt <;>
        cases e with
        | network msg => simp [sleepOk, isNetworkError, hlt]
        | uploadErr r msg =>
            cases r with
            | true =>
                have IH := ih (attempt + 1) (some key) (some msg)
                  (updateRecordingStatus rec.id .uploading { s3Key := some key }
                    (updateRecordingStatus rec.id .uploading
                      { uploadAttempts := some (attempt + 1) } store))
                simp [sleepOk, isNetworkError, isRetryableError, hlt]
                exact fun a ha => IH a ha
            | false => simp [sleepOk, isNetworkError, isRetryableError, hlt, terminalFailure]
        | other msg => simp [sleepOk, isNetworkError, isRetryableError, hlt, terminalFailure]
      case _ =>
        simp only [uploadLoop, heq]
        by_cases hlt : startAttempt < attempt <;>
        simp [sleepOk, hlt]

theorem uploadLoop_keyed_noTransfer (env : NetEnv) (rec : Recording) (startAttempt : Nat) :
    ∀ (fuel : Nat), ∀ (attempt : Nat) (k : String) (lastError : Option String)
      (store : AudioStore),
      ∀ ev ∈ (uploadLoop env rec startAttempt fuel attempt (some k) lastError store).2.2,
        isTransferCall ev = false := by
  intro fuel
  induction fuel with
  | zero =>
      intro attempt k lastError store ev hmem
      simp only [uploadLoop, terminalFailure, List.mem_cons, List.mem_singleton] at hmem
      rcases hmem with h | h | h
      · subst h; simp [isTransferCall]
      · subst h; simp [isTransferCall]
      · simp at h
  | succ fuel ih =>
      intro attempt k lastError store
      rcases attemptTry_shape env rec attempt (some k)
          (updateRecordingStatus rec.id .uploading { uploadAttempts := some (attempt + 1) } store)
        with ⟨key, e, hs3, heq⟩ | ⟨key, hs3, heq⟩ | ⟨e, hs3, heq⟩ | ⟨e, hs3, heq⟩ |
             ⟨key, e, hs3, heq⟩ | ⟨key, hs3, heq⟩
      case _ =>
        simp only [uploadLoop, heq]
        by_cases hlt : startAttempt < attempt <;>
        cases e with
        | network msg => simp [isTransferCall, isNetworkError, hlt]
        | uploadErr r msg =>
            cases r with
            | true =>
                have IH := ih (attempt + 1) key (some msg)
                  (updateRecordingStatus rec.id .uploading
                    { uploadAttempts := some (attempt + 1) } store)
                simp [isTransferCall, isNetworkError, isRetryableError, hlt]
                exact fun a ha => IH a ha
            | false => simp [isTransferCall, isNetworkError, isRetryableError, hlt, terminalFailure]
        | other msg => simp [isTransferCall, isNetworkError, isRetryableError, hlt, terminalFailure]
      case _ =>
        simp only [uploadLoop, heq]
        by_cases hlt : startAttempt < attempt <;>
        simp [isTransferCall, hlt]
      case _ => simp at hs3
      case _ => simp at hs3
      case _ => simp at hs3
      case _ => simp at hs3

theorem storeDelete_not_mem_sleeps (x : String) (a : Nat) (d : ℚ) (c : Prop)
    [Decidable c] :
    Event.storeDelete x ∉ (if c then [Event.sleep a d] else []) := by
  split <;> simp

theorem append_single_pair {α : Type} (A : List α) (s t : α) :
    (A ++ [s]) ++ [t] = A ++ [s, t] := by simp

theorem append_four_pair {α : Type} (A : List α) (p q r s t : α) :
    (A ++ [p, q, r, s]) ++ [t] = (A ++ [p, q, r]) ++ [s, t] := by simp

theorem uploadLoop_structure (env : NetEnv) (rec : Recording) (startAttempt : Nat) :
    ∀ (fuel : Nat), ∀ (attempt : Nat) (s3Key : Option String) (lastError : Option String)
      (store : AudioStore),
      ((uploadLoop env rec startAttempt fuel attempt s3Key lastError store).1.status =
          RecStatus.synced →
        (uploadLoop env rec startAttempt fuel attempt s3Key lastError store).1.success = true ∧
        ∃ pfx a,
          (uploadLoop env rec startAttempt fuel attempt s3Key lastError store).2.2 =
            pfx ++ [Event.callSave a true, Event.storeDelete rec.id] ∧
          (s3Key ≠ none ∨ ∃ b, Event.callPut b true ∈ pfx)) ∧
      ((uploadLoop env rec startAttempt fuel attempt s3Key lastError store).1.status =
          RecStatus.loc →
        (uploadLoop env rec startAttempt fuel attempt s3Key lastError store).1.success = false ∧
        (uploadLoop env rec startAttempt fuel attempt s3Key lastError store).1.error.isSome =
          true ∧
        ∃ pfx,
          (uploadLoop env rec startAttempt fuel attempt s3Key lastError store).2.2 =
            pfx ++ [Event.storeUpdate rec.id RecStatus.loc
              { uploadAttempts := some startAttempt }]) ∧
      (∀ x, Event.storeDelete x ∈
          (uploadLoop env rec startAttempt fuel attempt s3Key lastError store).2.2 →
        x = rec.id ∧
        (uploadLoop env rec startAttempt fuel attempt s3Key lastError store).1.status =
          RecStatus.synced) := by
  intro fuel
  induction fuel with
  | zero =>
      intro attempt s3Key lastError store
      refine ⟨fun h => ?_, fun h => ?_, fun x hx => ?_⟩
      · simp [uploadLoop, terminalFailure] at h
      · simp [uploadLoop, terminalFailure] at h
      · simp [uploadLoop, terminalFailure] at hx
  | succ fuel ih =>
      intro attempt s3Key lastError store
      rcases attemptTry_shape env rec attempt s3Key
          (updateRecordingStatus rec.id .uploading { uploadAttempts := some (attempt + 1) } store)
        with ⟨key, e, hs3, heq⟩ | ⟨key, hs3, heq⟩ | ⟨e, hs3, heq⟩ | ⟨e, hs3, heq⟩ |
             ⟨key, e, hs3, heq⟩ | ⟨key, hs3, heq⟩
      case _ =>
        -- A: remoteKey already present, metadata commit failed
        subst hs3
        cases e with
        | network msg =>
            simp only [uploadLoop, heq, isNetworkError, if_true]
            refine ⟨fun h => absurd h (by simp), fun _ => ⟨by trivial, by trivial, _, rfl⟩,
              fun x hx => by simp [storeDelete_not_mem_sleeps] at hx⟩
        | uploadErr r msg =>
            cases r with
            | true =>
                obtain ⟨IH1, IH2, IH3⟩ := ih (attempt + 1) (some key) (some msg)
                  (updateRecordingStatus rec.id .uploading
                    { uploadAttempts := some (attempt + 1) } store)
                simp only [uploadLoop, heq, isNetworkError, isRetryableError,
                  JsError.message, Bool.false_eq_true, if_false, if_true]
                refine ⟨fun h => ?_, fun h => ?_, fun x hx => ?_⟩
                · obtain ⟨hsucc, pfx2, a2, htr, _⟩ := IH1 h
                  refine ⟨hsucc, _, a2,
                    by rw [htr]; exact (List.append_assoc _ _ _).symm, Or.inl (by simp)⟩
                · obtain ⟨h1, h2, pfx2, htr⟩ := IH2 h
                  exact ⟨h1, h2, _, by rw [htr]; exact (List.append_assoc _ _ _).symm⟩
                · simp only [List.mem_append] at hx
                  rcases hx with ((hx | hx) | hx) | hx
                  · exact absurd hx (storeDelete_not_mem_sleeps x attempt _ _)
                  · simp at hx
                  · simp at hx
                  · exact IH3 x hx
            | false =>
                simp only [uploadLoop, heq, isNetworkError, isRetryableError,
                  Bool.false_eq_true, if_false]
                refine ⟨fun h => by simp [terminalFailure] at h,
                  fun h => by simp [terminalFailure] at h,
                  fun x hx => by simp [terminalFailure, storeDelete_not_mem_sleeps] at hx⟩
        | other msg =>
            simp only [uploadLoop, heq, isNetworkError, isRetryableError,
              Bool.false_eq_true, if_false]
            refine ⟨fun h => by simp [terminalFailure] at h,
              fun h => by simp [terminalFailure] at h,
              fun x hx => by simp [terminalFailure, storeDelete_not_mem_sleeps] at hx⟩
      case _ =>
        -- B: remoteKey already present, metadata commit succeeded
        subst hs3
        simp only [uploadLoop, heq]
        refine ⟨fun _ => ⟨by trivial, _, attempt, append_single_pair _ _ _, Or.inl (by simp)⟩,
          fun h => absurd h (by simp), fun x hx => ?_⟩
        simp [storeDelete_not_mem_sleeps] at hx
        exact ⟨hx, by trivial⟩
      case _ =>
        -- C: fresh attempt, presign failed
        subst hs3
        cases e with
        | network msg =>
            simp only [uploadLoop, heq, isNetworkError, if_true]
            refine ⟨fun h => absurd h (by simp), fun _ => ⟨by trivial, by trivial, _, rfl⟩,
              fun x hx => by simp [storeDelete_not_mem_sleeps] at hx⟩
        | uploadErr r msg =>
            cases r with
            | true =>
                obtain ⟨IH1, IH2, IH3⟩ := ih (attempt + 1) none (some msg)
                  (updateRecordingStatus rec.id .uploading
                    { uploadAttempts := some (attempt + 1) } store)
                simp only [uploadLoop, heq, isNetworkError, isRetryableError,
                  JsError.message, Bool.false_eq_true, if_false, if_true]
                refine ⟨fun h => ?_, fun h => ?_, fun x hx => ?_⟩
                · obtain ⟨hsucc, pfx2, a2, htr, hput⟩ := IH1 h
                  refine ⟨hsucc, _, a2,
                    by rw [htr]; exact (List.append_assoc _ _ _).symm, ?_⟩
                  rcases hput with hc | ⟨b, hb⟩
                  · exact absurd rfl hc
                  · exact Or.inr ⟨b, by simp [hb]⟩
                · obtain ⟨h1, h2, pfx2, htr⟩ := IH2 h
                  exact ⟨h1, h2, _, by rw [htr]; exact (List.append_assoc _ _ _).symm⟩
                · simp only [List.mem_append] at hx
                  rcases hx with ((hx | hx) | hx) | hx
                  · exact absurd hx (storeDelete_not_mem_sleeps x attempt _ _)
                  · simp at hx
                  · simp at hx
                  · exact IH3 x hx
            | false =>
                simp only [uploadLoop, heq, isNetworkError, isRetryableError,
                  Bool.false_eq_true, if_false]
                refine ⟨fun h => by simp [terminalFailure] at h,
                  fun h => by simp [terminalFailure] at h,
                  fun x hx => by simp [terminalFailure, storeDelete_not_mem_sleeps] at hx⟩
        | other msg =>
            simp only [uploadLoop, heq, isNetworkError, isRetryableError,
              Bool.false_eq_true, if_false]
            refine ⟨fun h => by simp [terminalFailure] at h,
              fun h => by simp [terminalFailure] at h,
              fun x hx => by simp [terminalFailure, storeDelete_not_mem_sleeps] at hx⟩
      case _ =>
        -- D: fresh attempt, object PUT failed
        subst hs3
        cases e with
        | network msg =>
            simp only [uploadLoop, heq, isNetworkError, if_true]
            refine ⟨fun h => absurd h (by simp), fun _ => ⟨by trivial, by trivial, _, rfl⟩,
              fun x hx => by simp [storeDelete_not_mem_sleeps] at hx⟩
        | uploadErr r msg =>
            cases r with
            | true =>
                obtain ⟨IH1, IH2, IH3⟩ := ih (attempt + 1) none (some msg)
                  (updateRecordingStatus rec.id .uploading
                    { uploadAttempts := some (attempt + 1) } store)
                simp only [uploadLoop, heq, isNetworkError, isRetryableError,
                  JsError.message, Bool.false_eq_true, if_false, if_true]
                refine ⟨fun h => ?_, fun h => ?_, fun x hx => ?_⟩
                · obtain ⟨hsucc, pfx2, a2, htr, hput⟩ := IH1 h
                  refine ⟨hsucc, _, a2,
                    by rw [htr]; exact (List.append_assoc _ _ _).symm, ?_⟩
                  rcases hput with hc | ⟨b, hb⟩
                  · exact absurd rfl hc
                  · exact Or.inr ⟨b, by simp [hb]⟩
                · obtain ⟨h1, h2, pfx2, htr⟩ := IH2 h
                  exact ⟨h1, h2, _, by rw [htr]; exact (List.append_assoc _ _ _).symm⟩
                · simp only [List.mem_append] at hx
                  rcases hx with ((hx | hx) | hx) | hx
                  · exact absurd hx (storeDelete_not_mem_sleeps x attempt _ _)
                  · simp at hx
                  · simp at hx
                  · exact IH3 x hx
            | false =>
                simp only [uploadLoop, heq, isNetworkError, isRetryableError,
                  Bool.false_eq_true, if_false]
                refine ⟨fun h => by simp [terminalFailure] at h,
                  fun h => by simp [terminalFailure] at h,
                  fun x hx => by simp [terminalFailure, storeDelete_not_mem_sleeps] at hx⟩
        | other msg =>
            simp only [uploadLoop, heq, isNetworkError, isRetryableError,
              Bool.false_eq_true, if_false]
            refine ⟨fun h => by simp [terminalFailure] at h,
              fun h => by simp [terminalFailure] at h,
              fun x hx => by simp [terminalFailure, storeDelete_not_mem_sleeps] at hx⟩
      case _ =>
        -- E: fresh attempt, PUT succeeded and key persisted, metadata commit failed
        subst hs3
        cases e with
        | network msg =>
            simp only [uploadLoop, heq, isNetworkError, if_true]
            refine ⟨fun h => absurd h (by simp), fun _ => ⟨by trivial, by trivial, _, rfl⟩,
              fun x hx => by simp [storeDelete_not_mem_sleeps] at hx⟩
        | uploadErr r msg =>
            cases r with
            | true =>
                obtain ⟨IH1, IH2, IH3⟩ := ih (attempt + 1) (some key) (some msg)
                  (updateRecordingStatus rec.id .uploading { s3Key := some key }
                    (updateRecordingStatus rec.id .uploading
                      { uploadAttempts := some (attempt + 1) } store))
                simp only [uploadLoop, heq, isNetworkError, isRetryableError,
                  JsError.message, Bool.false_eq_true, if_false, if_true]
                refine ⟨fun h => ?_, fun h => ?_, fun x hx => ?_⟩
                · obtain ⟨hsucc, pfx2, a2, htr, _⟩ := IH1 h
                  refine ⟨hsucc, _, a2,
                    by rw [htr]; exact (List.append_assoc _ _ _).symm,
                    Or.inr ⟨attempt, by simp⟩⟩
                · obtain ⟨h1, h2, pfx2, htr⟩ := IH2 h
                  exact ⟨h1, h2, _, by rw [htr]; exact (List.append_assoc _ _ _).symm⟩
                · simp only [List.mem_append] at hx
                  rcases hx with ((hx | hx) | hx) | hx
                  · exact absurd hx (storeDelete_not_mem_sleeps x attempt _ _)
                  · simp at hx
                  · simp at hx
                  · exact IH3 x hx
            | false =>
                simp only [uploadLoop, heq, isNetworkError, isRetryableError,
                  Bool.false_eq_true, if_false]
                refine ⟨fun h => by simp [terminalFailure] at h,
                  fun h => by simp [terminalFailure] at h,
                  fun x hx => by simp [terminalFailure, storeDelete_not_mem_sleeps] at hx⟩
        | other msg =>
            simp only [uploadLoop, heq, isNetworkError, isRetryableError,
              Bool.false_eq_true, if_false]
            refine ⟨fun h => by simp [terminalFailure] at h,
              fun h => by simp [terminalFailure] at h,
              fun x hx => by simp [terminalFailure, storeDelete_not_mem_sleeps] at hx⟩
      case _ =>
        -- F: fresh attempt, full transfer and metadata commit succeeded
        subst hs3
        simp only [uploadLoop, heq]
        refine ⟨fun _ => ⟨by trivial, _, attempt, append_four_pair _ _ _ _ _ _,
            Or.inr ⟨attempt, by simp⟩⟩,
          fun h => absurd h (by simp), fun x hx => ?_⟩
        simp [storeDelete_not_mem_sleeps] at hx
        exact ⟨hx, by trivial⟩

theorem uploadRecording_eq_loop (env : NetEnv) (rid : String) (store : AudioStore)
    (rec : Recording) (hget : getRecordingById rid store = some rec)
    (hst : rec.status ≠ RecStatus.synced)
    (hbud : rec.uploadAttempts < MAX_ATTEMPTS) :
    uploadRecording env rid store =
      uploadLoop env rec rec.uploadAttempts (MAX_ATTEMPTS - rec.uploadAttempts)
        rec.uploadAttempts rec.s3Key none store := by
  have h2 : ¬ MAX_ATTEMPTS ≤ rec.uploadAttempts := by omega
  simp [uploadRecording, hget, hst, h2]

theorem backoffDelay_bounds (n : Nat) (r : ℚ) (h0 : 0 ≤ r) (h1 : r < 1) :
    500 * 2 ^ n ≤ backoffDelay n r ∧ backoffDelay n r < 1500 * 2 ^ n := by
  unfold backoffDelay
  have hp : (0 : ℚ) < 2 ^ n := by positivity
  constructor <;> nlinarith

/-- C1: a recording reaches synced only after both the object-store PUT and the
metadata-store commit are confirmed: whenever uploadRecording removes the local
record (storeDelete), the run succeeded with status synced, the removal is the
final action and immediately follows a successful saveRecordingToDb call, the
object PUT was confirmed in this invocation (callPut succeeded) unless the
stored s3Key marker from an earlier confirmed PUT was already present, and no
Local Store write of the whole run ever persists status synced. -/
theorem uploadRecording_synced_only_after_commit (env : NetEnv) (rid : String)
    (store : AudioStore)
    (h : Event.storeDelete rid ∈ (uploadRecording env rid store).2.2) :
    (uploadRecording env rid store).1.success = true ∧
    (uploadRecording env rid store).1.status = RecStatus.synced ∧
    (∃ pfx a, (uploadRecording env rid store).2.2 =
        pfx ++ [Event.callSave a true, Event.storeDelete rid] ∧
      ((∃ rec, getRecordingById rid store = some rec ∧ rec.s3Key ≠ none) ∨
        ∃ b, Event.callPut b true ∈ pfx)) ∧
    (∀ i st' e', Event.storeUpdate i st' e' ∈ (uploadRecording env rid store).2.2 →
      st' ≠ RecStatus.synced) := by
  rcases hget : getRecordingById rid store with _ | rec
  · simp [uploadRecording, hget] at h
  · by_cases hst : rec.status = RecStatus.synced
    · simp [uploadRecording, hget, hst] at h
    · by_cases hbud : MAX_ATTEMPTS ≤ rec.uploadAttempts
      · simp [uploadRecording, hget, hst, hbud] at h
      · have heq := uploadRecording_eq_loop env rid store rec hget hst (by omega)
        have hrid := getRecordingById_id rid store rec hget
        rw [heq] at h ⊢
        obtain ⟨S1, S2, S3⟩ := uploadLoop_structure env rec rec.uploadAttempts
          (MAX_ATTEMPTS - rec.uploadAttempts) rec.uploadAttempts rec.s3Key none store
        obtain ⟨_, hsync⟩ := S3 rid h
        obtain ⟨hsucc, pfx, a, htr, hdisj⟩ := S1 hsync
        refine ⟨hsucc, hsync, ⟨pfx, a, ?_, ?_⟩, ?_⟩
        · rw [htr, hrid]
        · rcases hdisj with hk | hput
          · exact Or.inl ⟨rec, rfl, hk⟩
          · exact Or.inr hput
        · intro i st' e' hmem
          have hw := uploadLoop_writeOk env rec rec.uploadAttempts
            (MAX_ATTEMPTS - rec.uploadAttempts) rec.uploadAttempts rec.s3Key none store
            (Nat.le_refl _) (by omega) _ hmem
          exact hw.1

theorem uploadRecording_synced_only_after_commit_witness :
    Event.storeDelete recA.id ∈ (uploadRecording envOk recA.id storeA).2.2 ∧
    (uploadRecording envOk recA.id storeA).1.status = RecStatus.synced :=
  ⟨by decide,
   (uploadRecording_synced_only_after_commit envOk recA.id storeA (by decide)).2.1⟩

/-- C2: when the stored s3Key idempotency marker is already present, no
object-transfer call (getPresignedUrl or putToS3) happens in the run. -/
theorem uploadRecording_keyed_skips_transfer (env : NetEnv) (rid : String)
    (store : AudioStore) (rec : Recording) (k : String)
    (hget : getRecordingById rid store = some rec) (hkey : rec.s3Key = some k) :
    ∀ ev ∈ (uploadRecording env rid store).2.2, isTransferCall ev = false := by
  intro ev hmem
  by_cases hst : rec.status = RecStatus.synced
  · simp [uploadRecording, hget, hst] at hmem
  · by_cases hbud : MAX_ATTEMPTS ≤ rec.uploadAttempts
    · simp [uploadRecording, hget, hst, hbud] at hmem
    · have heq := uploadRecording_eq_loop env rid store rec hget hst (by omega)
      rw [heq, hkey] at hmem
      exact uploadLoop_keyed_noTransfer env rec rec.uploadAttempts
        (MAX_ATTEMPTS - rec.uploadAttempts) rec.uploadAttempts k none store ev hmem

theorem uploadRecording_keyed_skips_transfer_witness :
    getRecordingById recKeyed.id storeKeyed = some recKeyed ∧
    recKeyed.s3Key = some ("k0") ∧
    isTransferCall (Event.callSave 1 true) = false :=
  ⟨by decide, by decide,
   uploadRecording_keyed_skips_transfer envOk recKeyed.id storeKeyed recKeyed ("k0")
     (by decide) (by decide) (Event.callSave 1 true) (by decide)⟩

/-- C3 (amended): on a network-class failure uploadRecording reverts the record
to status local with uploadAttempts restored to the value the record had when
the invocation loaded it, as the final action before returning failure; when the
network failure hits the invocation's first attempt this is the pre-attempt
value, but attempts consumed by earlier failed attempts of the same invocation
are refunded as well. -/
theorem uploadRecording_network_reverts_to_local (env : NetEnv) (rid : String)
    (store : AudioStore)
    (h : (uploadRecording env rid store).1.status = RecStatus.loc) :
    (uploadRecording env rid store).1.success = false ∧
    (uploadRecording env rid store).1.error.isSome = true ∧
    ∃ rec pfx, getRecordingById rid store = some rec ∧
      (uploadRecording env rid store).2.2 =
        pfx ++ [Event.storeUpdate rec.id RecStatus.loc
          { uploadAttempts := some rec.uploadAttempts }] := by
  rcases hget : getRecordingById rid store with _ | rec
  · simp [uploadRecording, hget] at h
  · by_cases hst : rec.status = RecStatus.synced
    · simp [uploadRecording, hget, hst] at h
    · by_cases hbud : MAX_ATTEMPTS ≤ rec.uploadAttempts
      · simp [uploadRecording, hget, hst, hbud] at h
      · have heq := uploadRecording_eq_loop env rid store rec hget hst (by omega)
        rw [heq] at h ⊢
        obtain ⟨S1, S2, S3⟩ := uploadLoop_structure env rec rec.uploadAttempts
          (MAX_ATTEMPTS - rec.uploadAttempts) rec.uploadAttempts rec.s3Key none store
        obtain ⟨h1, h2, pfx, htr⟩ := S2 h
        exact ⟨h1, h2, rec, pfx, rfl, htr⟩

theorem uploadRecording_network_reverts_to_local_witness :
    (uploadRecording envNetFirst recA.id storeA).1.status = RecStatus.loc ∧
    (uploadRecording envNetFirst recA.id storeA).1.success = false :=
  ⟨by decide,
   (uploadRecording_network_reverts_to_local envNetFirst recA.id storeA (by decide)).1⟩

/-- C3 (counterexample): with a 503 on attempt 1 and a network failure on
attempt 2, the value persisted before the failing attempt was 1 (written by
attempt 1's in-loop increment), yet the network-failure path stores 0 — the
invocation-entry value — so uploadAttempts is not restored to "its value before
that attempt" as the claim states. -/
theorem uploadRecording_network_restore_cex :
    (uploadRecording env503ThenNet recA.id storeA).2.2 =
      [Event.storeUpdate recA.id RecStatus.uploading { uploadAttempts := some 1 },
       Event.callPresign 0 false,
       Event.sleep 1 (backoffDelay 0 (env503ThenNet.jitter 1)),
       Event.storeUpdate recA.id RecStatus.uploading { uploadAttempts := some 2 },
       Event.callPresign 1 false,
       Event.storeUpdate recA.id RecStatus.loc { uploadAttempts := some 0 }] ∧
    (getRecordingById recA.id (uploadRecording env503ThenNet recA.id storeA).2.1).map
      (fun r => r.uploadAttempts) = some 0 ∧
    (0 : Nat) ≠ 1 :=
  ⟨rfl, by decide, by decide⟩

/-- C4 (amended): every backoff sleep happens on an iteration strictly after the
invocation's first, with delay exactly backoffDelay (a - 1) at that iteration's
Math.random draw, i.e. 1000 * 2^(a-1) * (1/2 + rand); with rand ∈ [0,1) the
delay before 1-based attempt k = a + 1 lies in
[500 * 2^(k-2), 1500 * 2^(k-2)) — in particular [500, 1500) before attempt 2
and [1000, 3000) before attempt 3, not the spec's [2000,3000) and [4000,6000). -/
theorem uploadRecording_backoff_bounds (env : NetEnv) (rid : String)
    (store : AudioStore) (a : Nat) (d : ℚ)
    (h : Event.sleep a d ∈ (uploadRecording env rid store).2.2)
    (hj0 : 0 ≤ env.jitter a) (hj1 : env.jitter a < 1) :
    1 ≤ a ∧ d = backoffDelay (a - 1) (env.jitter a) ∧
    500 * 2 ^ (a - 1) ≤ d ∧ d < 1500 * 2 ^ (a - 1) := by
  rcases hget : getRecordingById rid store with _ | rec
  · simp [uploadRecording, hget] at h
  · by_cases hst : rec.status = RecStatus.synced
    · simp [uploadRecording, hget, hst] at h
    · by_cases hbud : MAX_ATTEMPTS ≤ rec.uploadAttempts
      · simp [uploadRecording, hget, hst, hbud] at h
      · have heq := uploadRecording_eq_loop env rid store rec hget hst (by omega)
        rw [heq] at h
        have hs := uploadLoop_sleepOk env rec rec.uploadAttempts
          (MAX_ATTEMPTS - rec.uploadAttempts) rec.uploadAttempts rec.s3Key none store _ h
        obtain ⟨hlt, hd⟩ := hs
        have hb := backoffDelay_bounds (a - 1) (env.jitter a) hj0 hj1
        exact ⟨by omega, hd, by rw [hd]; exact hb.1, by rw [hd]; exact hb.2⟩

theorem uploadRecording_backoff_bounds_witness :
    Event.sleep 1 (backoffDelay 0 (env503ThenNet.jitter 1)) ∈
      (uploadRecording env503ThenNet recA.id storeA).2.2 ∧
    0 ≤ env503ThenNet.jitter 1 ∧ env503ThenNet.jitter 1 < 1 ∧
    (1 ≤ 1 ∧
     backoffDelay 0 (env503ThenNet.jitter 1) =
       backoffDelay (1 - 1) (env503ThenNet.jitter 1) ∧
     500 * 2 ^ (1 - 1) ≤ backoffDelay 0 (env503ThenNet.jitter 1) ∧
     backoffDelay 0 (env503ThenNet.jitter 1) < 1500 * 2 ^ (1 - 1)) := by
  have htr : (uploadRecording env503ThenNet recA.id storeA).2.2 =
      [Event.storeUpdate recA.id RecStatus.uploading { uploadAttempts := some 1 },
       Event.callPresign 0 false,
       Event.sleep 1 (backoffDelay 0 (env503ThenNet.jitter 1)),
       Event.storeUpdate recA.id RecStatus.uploading { uploadAttempts := some 2 },
       Event.callPresign 1 false,
       Event.storeUpdate recA.id RecStatus.loc { uploadAttempts := some 0 }] := rfl
  refine ⟨?_, ?_, ?_, ?_⟩
  · rw [htr]
    simp
  · norm_num [env503ThenNet]
  · norm_num [env503ThenNet]
  · refine uploadRecording_backoff_bounds env503ThenNet recA.id storeA 1 _ ?_ ?_ ?_
    · rw [htr]
      simp
    · norm_num [env503ThenNet]
    · norm_num [env503ThenNet]

/-- C4 (counterexample): the delay slept before attempt 2 (the sleep with
attemptVar 1, directly preceding the write of uploadAttempts = 2) equals
backoffDelay 0 at jitter draw 1/2, i.e. 1000 ms, which does not lie in the
claimed interval [2000, 3000). -/
theorem uploadRecording_backoff_interval_cex :
    (uploadRecording env503ThenNet recA.id storeA).2.2 =
      [Event.storeUpdate recA.id RecStatus.uploading { uploadAttempts := some 1 },
       Event.callPresign 0 false,
       Event.sleep 1 (backoffDelay 0 (env503ThenNet.jitter 1)),
       Event.storeUpdate recA.id RecStatus.uploading { uploadAttempts := some 2 },
       Event.callPresign 1 false,
       Event.storeUpdate recA.id RecStatus.loc { uploadAttempts := some 0 }] ∧
    backoffDelay 0 (env503ThenNet.jitter 1) = 1000 ∧
    ¬ ((2000 : ℚ) ≤ 1000 ∧ (1000 : ℚ) < 3000) :=
  ⟨rfl, by norm_num [backoffDelay, env503ThenNet], by norm_num⟩

/-- C5: every uploadAttempts value uploadRecording ever writes to the Local
Store is at most MAX_ATTEMPTS = 3. -/
theorem uploadRecording_attempts_bounded (env : NetEnv) (rid : String)
    (store : AudioStore) (i : String) (st : RecStatus) (e : UpdateExtras) (v : Nat)
    (h : Event.storeUpdate i st e ∈ (uploadRecording env rid store).2.2)
    (hv : e.uploadAttempts = some v) : v ≤ MAX_ATTEMPTS := by
  rcases hget : getRecordingById rid store with _ | rec
  · simp [uploadRecording, hget] at h
  · by_cases hst2 : rec.status = RecStatus.synced
    · simp [uploadRecording, hget, hst2] at h
    · by_cases hbud : MAX_ATTEMPTS ≤ rec.uploadAttempts
      · simp [uploadRecording, hget, hst2, hbud] at h
      · have heq := uploadRecording_eq_loop env rid store rec hget hst2 (by omega)
        rw [heq] at h
        have hw := uploadLoop_writeOk env rec rec.uploadAttempts
          (MAX_ATTEMPTS - rec.uploadAttempts) rec.uploadAttempts rec.s3Key none store
          (Nat.le_refl _) (by omega) _ h
        exact hw.2 v hv

theorem uploadRecording_attempts_bounded_witness :
    Event.storeUpdate recA.id RecStatus.uploading { uploadAttempts := some 1 } ∈
      (uploadRecording envOk recA.id storeA).2.2 ∧
    1 ≤ MAX_ATTEMPTS :=
  ⟨by decide,
   uploadRecording_attempts_bounded envOk recA.id storeA recA.id RecStatus.uploading
     { uploadAttempts := some 1 } 1 (by decide) rfl⟩

/-- C6: a record whose attempt budget is already exhausted makes uploadRecording
return failure immediately: the result is failed with the stored lastError (or
the default message), the store is unchanged and the trace is empty — zero
network calls, zero writes. -/
theorem uploadRecording_budget_exhausted (env : NetEnv) (rid : String)
    (store : AudioStore) (rec : Recording)
    (hget : getRecordingById rid store = some rec)
    (hst : rec.status ≠ RecStatus.synced)
    (hbud : MAX_ATTEMPTS ≤ rec.uploadAttempts) :
    uploadRecording env rid store =
      ({ success := false, recordingId := rid, status := RecStatus.failed,
         error := some (rec.lastError.getD ("Maximum upload attempts reached")) },
       store, []) := by
  simp [uploadRecording, hget, hst, hbud]

theorem uploadRecording_budget_exhausted_witness :
    getRecordingById recSpent.id storeSpent = some recSpent ∧
    recSpent.status ≠ RecStatus.synced ∧
    MAX_ATTEMPTS ≤ recSpent.uploadAttempts ∧
    uploadRecording envOk recSpent.id storeSpent =
      ({ success := false, recordingId := recSpent.id, status := RecStatus.failed,
         error := some (recSpent.lastError.getD ("Maximum upload attempts reached")) },
       storeSpent, []) :=
  ⟨by decide, by decide, by decide,
   uploadRecording_budget_exhausted envOk recSpent.id storeSpent recSpent
     (by decide) (by decide) (by decide)⟩

/-- C7: tasks submitted to the single promise-chain lane run exactly once each,
strictly in submission order — the lane's trace is the concatenation of the
tasks' traces in submission order, for every assignment of task outcomes
(including rejecting tasks, so an upload's failure does not prevent a later
delete from running); in particular a delete submitted after an upload
contributes its effects strictly after all of the upload's effects. -/
theorem queue_serializes_tasks {α : Type} (pre mid post : List (Unit → Settled α))
    (up del : Unit → Settled α) :
    (runQueue (pre ++ up :: (mid ++ del :: post))).trace =
      taskTraces pre ++ (up ()).trace ++ taskTraces mid ++ (del ()).trace ++
        taskTraces post := by
  rw [runQueue_trace]
  simp [taskTraces, List.append_assoc]

/-- C8: a PendingDelete entry is removed by the reconciliation sweep iff
deleteRecordingFromServer resolved true (an OK response) for it; an entry whose
call threw or resolved false is retained. -/
theorem pendingDelete_removed_iff (env : PendingDelete → FetchOutcome)
    (store : AudioStore) (e : PendingDelete)
    (hmem : e ∈ store.pendingDeletes)
    (hnd : (store.pendingDeletes.map (fun x => x.id)).Nodup) :
    (e ∉ (handleRetryDeletes env store).pendingDeletes ↔
      deleteRecordingFromServer (env e) = Except.ok true) := by
  unfold handleRetryDeletes getAllPendingDeletes
  rw [sweep_mem]
  constructor
  · intro hnot
    by_contra hne
    apply hnot
    refine ⟨hmem, fun y hy hdy hid => ?_⟩
    have hYe : y = e := List.inj_on_of_nodup_map hnd hy hmem hid
    subst hYe
    exact hne hdy
  · intro hdel hin
    obtain ⟨_, hall⟩ := hin
    exact hall e hmem hdel rfl

theorem pendingDelete_removed_iff_witness :
    pdA ∈ storePd.pendingDeletes ∧
    (storePd.pendingDeletes.map (fun x => x.id)).Nodup ∧
    (pdA ∉ (handleRetryDeletes envDelOk storePd).pendingDeletes ↔
      deleteRecordingFromServer (envDelOk pdA) = Except.ok true) :=
  ⟨by decide, by decide,
   pendingDelete_removed_iff envDelOk storePd pdA (by decide) (by decide)⟩

/-- C9 (amended): saving a recording and reading it back through
getRecordingById or getAllRecordings reproduces it exactly whenever its blob
carries a non-empty content-type; the bytes and all other fields are always
preserved, but an empty content-type is replaced by "audio/webm" on read. -/
theorem saveRecording_roundtrip (r : Recording) (store : AudioStore)
    (h : r.blob.type ≠ "") :
    getRecordingById r.id (saveRecording r store) = some r ∧
    r ∈ getAllRecordings (saveRecording r store) := by
  have hhy : hydrateRecording (toStorable r) = r := hydrate_toStorable r h
  constructor
  · unfold getRecordingById saveRecording
    have hf := find?_putRecord store.recordings (toStorable r) r.id rfl
    rw [hf]
    simp [hhy]
  · unfold getAllRecordings saveRecording
    exact List.mem_map.mpr ⟨toStorable r, mem_putRecord_self _ _, hhy⟩

theorem saveRecording_roundtrip_witness :
    recA.blob.type ≠ "" ∧
    (getRecordingById recA.id (saveRecording recA storeEmpty) = some recA ∧
     recA ∈ getAllRecordings (saveRecording recA storeEmpty)) :=
  ⟨by decide, saveRecording_roundtrip recA storeEmpty (by decide)⟩

/-- C9 (counterexample): a recording whose blob has an empty content-type does
not round-trip identically: it is read back with content-type "audio/webm". -/
theorem saveRecording_roundtrip_cex :
    recNoType.blob.type = "" ∧
    getRecordingById recNoType.id (saveRecording recNoType storeEmpty) =
      some { recNoType with
        blob := { data := recNoType.blob.data, type := "audio/webm" } } ∧
    ({ recNoType with
        blob := { data := recNoType.blob.data, type := "audio/webm" } } : Recording)
      ≠ recNoType := by
  decide

/-- C10: when the browser is online and deleteRecordingFromServer resolves with
false (a non-OK server response, not a thrown network error), handleDelete
performs the call and nothing else: no PendingDelete is recorded and no retry
(background sync or Safari timer) is scheduled — the remote deletion is
silently dropped. -/
theorem handleDelete_nonOk_response_dropped (safari : Bool) (code : Nat)
    (recordingId s3Key : String) (store : AudioStore)
    (h : respOk code = false) :
    handleDelete true safari (FetchOutcome.resp code) recordingId s3Key store =
      (store, [SwEvent.callDeleteRemote s3Key recordingId]) ∧
    deleteRecordingFromServer (FetchOutcome.resp code) = Except.ok false := by
  constructor
  · simp [handleDelete, deleteRecordingFromServer]
  · simp [deleteRecordingFromServer, h]

theorem handleDelete_nonOk_response_dropped_witness :
    respOk 500 = false ∧
    (handleDelete true false (FetchOutcome.resp 500) pdA.id pdA.s3Key storeEmpty =
      (storeEmpty, [SwEvent.callDeleteRemote pdA.s3Key pdA.id]) ∧
     deleteRecordingFromServer (FetchOutcome.resp 500) = Except.ok false) :=
  ⟨by decide,
   handleDelete_nonOk_response_dropped false 500 pdA.id pdA.s3Key storeEmpty (by decide)⟩
